import Mathlib

/-!
# Verification of the oracle job dispatcher (distributed worker system)

Shallow embedding of the Go sources of the repository. The repository holds
two snapshots of the same project: a direct-dispatch (HTTP) topology
(`pkg/client/client.go`, which concatenates `client.go`, `models.go` and the
direct `coordinator.go`, plus `pkg/coordinator/aggregator.go`) and a
publish/subscribe bus topology (NATS coordinator, plus the cut-down
`AggregateResults` appended to `pkg/coordinator/middleware.go`).

Conventions of the embedding:
* Go `float64` values are embedded as exact rationals (`ℚ`); the properties
  verified here do not hinge on binary floating-point rounding.
* Go `time.Duration` / `time.Time` are embedded as rationals.
* Go maps keyed by strings are embedded either as association lists or as
  functions `String → Option _`, with the access discipline of the source.
* Concurrency is embedded by making the nondeterministic inputs of a round
  (which worker calls completed before the deadline, in which order results
  arrived, in which order a Go map is iterated) explicit parameters.
-/

/-- Go struct `models.WorkerResult`: the response from a worker (models.go). -/
structure WorkerResult where
  workerID : String
  requestID : String
  value : ℚ
  err : String
  responseTime : ℚ
  reliable : Bool
deriving DecidableEq, Repr

/-- Go struct `models.OracleRequest`: a request to fetch data from oracles (models.go). -/
structure OracleRequest where
  id : String
  query : String
deriving DecidableEq, Repr

/-- Go struct `models.OracleResult`: the final aggregated response (models.go). -/
structure OracleResult where
  requestID : String
  finalValue : ℚ
  workerResponses : List WorkerResult
  reliabilityNote : String
deriving DecidableEq, Repr

/-- Go struct `models.WorkerInfo`: a registered worker record (models.go). -/
structure WorkerInfo where
  id : String
  endpoint : String
  lastSeen : ℚ
  reliable : Bool
deriving DecidableEq, Repr

/-- The successful values of a result list: the `Value` fields of the
results whose `Err` field is empty, in list order. Every aggregation
strategy in `aggregator.go` filters exactly like this
(`if result.Err == ""`). -/
def successfulValues (results : List WorkerResult) : List ℚ :=
  (results.filter (fun r => r.err = "")).map (fun r => r.value)

/-- Function `aggregateAverage` (aggregator.go lines 10-30; the identical function
also appears in the bus snapshot appended to middleware.go): sum and count
the successful results, return `sum/count`, with `0.0` for an empty input
or no successes. -/
def aggregateAverage (results : List WorkerResult) : ℚ :=
  if results.length = 0 then 0
  else
    let vals := successfulValues results
    if vals.length = 0 then 0
    else vals.sum / (vals.length : ℚ)

/-- Function `aggregateMedian` (aggregator.go lines 33-59): filter the successful
values, sort ascending (`sort.Float64s`), return the middle element for an
odd count or the mean of the two middle elements for an even count; `0.0`
for an empty input or no successes. Out-of-range indexing cannot occur in
the source; `getD` with default `0` is used at indices proved in range. -/
def aggregateMedian (results : List WorkerResult) : ℚ :=
  if results.length = 0 then 0
  else
    let values := successfulValues results
    if values.length = 0 then 0
    else
      let sorted := List.insertionSort (fun a b => a ≤ b) values
      let n := sorted.length
      if n % 2 = 0 then (sorted.getD (n / 2 - 1) 0 + sorted.getD (n / 2) 0) / 2
      else sorted.getD (n / 2) 0

/-- Go's conversion `int(x)` for `float64 x`: truncation toward zero. -/
def goTrunc (q : ℚ) : ℤ :=
  if 0 ≤ q then ⌊q⌋ else ⌈q⌉

/-- The rounding used by `aggregateMajorityVote` (aggregator.go line 73):
`int(result.Value + 0.5)`. -/
def goRound (q : ℚ) : ℤ :=
  goTrunc (q + 1 / 2)

/-- The map entry `voteCounts[b]` of aggregator.go lines 68-77: how many successful
values round (via `goRound`) into bucket `b`. -/
def voteCount (vals : List ℚ) (b : ℤ) : ℕ :=
  (vals.filter (fun v => goRound v = b)).length

/-- The max-finding loop of aggregator.go lines 84-92: iterate over the
buckets in the (unspecified) Go map iteration order `order`, keeping the
first bucket whose count strictly exceeds the best count so far; the
accumulator starts at `(0, 0)` (`var majorityValue int; var maxVotes int`). -/
def findMajority (order : List ℤ) (count : ℤ → ℕ) : ℤ × ℕ :=
  order.foldl (fun acc b => if count b > acc.2 then (b, count b) else acc) (0, 0)

/-- Function `aggregateMajorityVote` (aggregator.go lines 62-95). The parameter
`order` is the iteration order of the Go map `voteCounts`, which the Go
runtime leaves unspecified; it is an arbitrary enumeration of the map's
keys (the buckets with nonzero count). -/
def aggregateMajorityVote (order : List ℤ) (results : List WorkerResult) : ℚ :=
  if results.length = 0 then 0
  else
    let vals := successfulValues results
    if vals.length = 0 then 0
    else ((findMajority order (voteCount vals)).1 : ℚ)

/-- Function `AggregateResults` (aggregator.go lines 98-107, the direct-dispatch
snapshot): dispatch on the strategy name; every name other than `"median"`
and `"majority"` takes the `default` branch, average. -/
def AggregateResults (order : List ℤ) (results : List WorkerResult)
    (strategy : String) : ℚ :=
  if strategy = "median" then aggregateMedian results
  else if strategy = "majority" then aggregateMajorityVote order results
  else aggregateAverage results

/-- Function `AggregateResults` of the bus snapshot (appended to middleware.go,
lines 247-252): the strategy argument is ignored and the average is always
returned. -/
def Bus.AggregateResults (results : List WorkerResult) (strategy : String) : ℚ :=
  aggregateAverage results

/-- Nearest-integer rounding (ties up), stated from the spec's words
"round each successful value to the nearest integer"; used only to compare
the claimed rounding with the source's `goRound`. -/
def roundNearestSpec (q : ℚ) : ℤ :=
  ⌊q + 1 / 2⌋

/-- The success count computed by `calculateReliabilityNote`
(`successCount` loop, client.go lines 395-400). -/
def successCount (results : List WorkerResult) : ℕ :=
  (results.filter (fun r => r.err = "")).length

/-- The success rate computed by `calculateReliabilityNote`
(client.go line 402): `float64(successCount) / float64(len(results))`. -/
def successRatio (results : List WorkerResult) : ℚ :=
  (successCount results : ℚ) / (results.length : ℚ)

/-- Function `calculateReliabilityNote` (identical in both snapshots: direct
coordinator.go lines 390-411, bus coordinator lines 165-186): the success
ratio of the round mapped to a human-readable note. -/
def calculateReliabilityNote (results : List WorkerResult) : String :=
  if results.length = 0 then "No workers responded"
  else
    if successRatio results ≥ 4 / 5 then "All workers responded successfully"
    else if successRatio results ≥ 1 / 2 then
      "Partial response: " ++ toString (successCount results) ++ "/" ++
        toString results.length ++ " workers succeeded"
    else
      "Low reliability: only " ++ toString (successCount results) ++ "/" ++
        toString results.length ++ " workers succeeded"

/-- Function `utils.CalculateReliability` (utils.go): `totalCount == 0` yields
`false`, otherwise the success rate is compared against the 0.7
threshold. Go `int` is embedded as `ℤ`. -/
def CalculateReliability (successCount totalCount : ℤ) : Bool :=
  if totalCount = 0 then false
  else decide ((successCount : ℚ) / (totalCount : ℚ) ≥ 7 / 10)

/-- The decode step of `sendTaskToWorker`: either `json.Unmarshal` fails
with a message, or it yields a `WorkerResult`. -/
inductive DecodeOutcome
  | fail (msg : String)
  | ok (r : WorkerResult)
deriving DecidableEq, Repr

/-- The environment of one `sendTaskToWorker` call (client.go lines
311-387): which of the fallible steps failed (in the order the source
checks them), the HTTP status code of the response, the decode outcome,
and the measured elapsed time (`time.Since(startTime)`). -/
structure WorkerCall where
  marshalErr : Option String
  createErr : Option String
  transportErr : Option String
  status : ℕ
  readErr : Option String
  decodeResult : DecodeOutcome
  elapsed : ℚ
deriving DecidableEq, Repr

/-- Function `sendTaskToWorker` (client.go lines 311-387, direct topology): every
fallible step returns a `WorkerResult` with a descriptive `Err` string on
failure; on success the decoded result has its `ResponseTime`, `WorkerID`
and `RequestID` fields overwritten (lines 382-384). The HTTP status code
is never inspected by the source, so `call.status` is unused. -/
def sendTaskToWorker (req : OracleRequest) (worker : WorkerInfo)
    (call : WorkerCall) : WorkerResult :=
  match call.marshalErr with
  | some e => ⟨worker.id, req.id, 0, "failed to marshal request: " ++ e, call.elapsed, false⟩
  | none =>
  match call.createErr with
  | some e => ⟨worker.id, req.id, 0, "failed to create HTTP request: " ++ e, call.elapsed, false⟩
  | none =>
  match call.transportErr with
  | some e => ⟨worker.id, req.id, 0, "HTTP request failed: " ++ e, call.elapsed, false⟩
  | none =>
  match call.readErr with
  | some e => ⟨worker.id, req.id, 0, "failed to read response body: " ++ e, call.elapsed, false⟩
  | none =>
  match call.decodeResult with
  | .fail e => ⟨worker.id, req.id, 0, "failed to decode response: " ++ e, call.elapsed, false⟩
  | .ok result =>
      { result with responseTime := call.elapsed, workerID := worker.id, requestID := req.id }

/-- Function `dispatchToWorkers` (client.go lines 256-308, direct topology): one
concurrent call per registered worker, collected through a fan-in channel
until the channel closes, the 3-second timer fires, or the context is
cancelled. `arrived` is the list of (worker, call environment) pairs whose
results landed before the collection window closed, in arrival order;
workers that never responded in time are simply absent from it. -/
def dispatchToWorkers (req : OracleRequest)
    (arrived : List (WorkerInfo × WorkerCall)) : List WorkerResult :=
  arrived.map (fun wc => sendTaskToWorker req wc.1 wc.2)

/-- Function `SubmitRequest` (client.go lines 232-253, direct topology): dispatch,
aggregate with the configured strategy (`c.aggregator`), annotate, compose.
`order` is the Go map iteration order used inside the majority strategy. -/
def directSubmitRequest (order : List ℤ) (aggregator : String)
    (req : OracleRequest) (arrived : List (WorkerInfo × WorkerCall)) : OracleResult :=
  let workerResults := dispatchToWorkers req arrived
  { requestID := req.id
    finalValue := AggregateResults order workerResults aggregator
    workerResponses := workerResults
    reliabilityNote := calculateReliabilityNote workerResults }

/-- The `pendingReqs` map of the bus coordinator: `RequestID` to the
buffered contents of that round's reply channel (`nil` = no entry). -/
def Pending : Type := String → Option (List WorkerResult)

/-- Function `handleWorkerResult` (bus coordinator, part_002 lines 77-93): look up
the pending channel under the incoming result's own `RequestID`; if no
entry exists the result is dropped with a log line; otherwise the result
is sent to that channel, unless its buffer (capacity 10) is full, in which
case it is dropped with a log line. -/
def handleWorkerResult (pending : Pending) (result : WorkerResult) : Pending :=
  match pending result.requestID with
  | none => pending
  | some ch =>
      if ch.length < 10 then
        fun k => if k = result.requestID then some (ch ++ [result]) else pending k
      else pending

/-- The receiving side of one round's collection loop (part_002 lines
127-142): the round's goroutine drains its own reply channel, appending
the drained results to its `workerResults` slice in arrival order. -/
def drainOwn (reqID : String) (p : Pending) : List WorkerResult × Pending :=
  match p reqID with
  | some ch => (ch, fun k => if k = reqID then some [] else p k)
  | none => ([], p)

/-- One step of the bus round's collection: an incoming result is routed
by `handleWorkerResult`, then the round drains its own channel. -/
def busStep (reqID : String) (acc : List WorkerResult × Pending)
    (r : WorkerResult) : List WorkerResult × Pending :=
  let p := handleWorkerResult acc.2 r
  let d := drainOwn reqID p
  (acc.1 ++ d.1, d.2)

/-- One round's result collection in the bus topology: each incoming
result in `events` (arrival order) is routed by `handleWorkerResult`, and
the round drains its own channel; the fold returns the collected results
of the round together with the final pending map. -/
def busCollect (reqID : String) (pending : Pending)
    (events : List WorkerResult) : List WorkerResult × Pending :=
  events.foldl (busStep reqID) ([], pending)

/-- The nondeterministic environment of one bus round: whether
`PublishTask` succeeded, the error text if it failed, and the results
arriving on `oracle.results` during the collection window (the window
closes by the 5-second timer, context cancellation, or channel close;
all three exits run the same cleanup and aggregation code). -/
structure BusRound where
  publishOk : Bool
  publishErrMsg : String
  events : List WorkerResult
deriving DecidableEq, Repr

/-- Function `aggregateResults` (bus coordinator, part_002 lines 146-162): average
aggregation (the bus snapshot's `AggregateResults` is called with
`"average"`), reliability note, composed `OracleResult`. -/
def busAggregateRound (requestID : String) (results : List WorkerResult) : OracleResult :=
  { requestID := requestID
    finalValue := Bus.AggregateResults results "average"
    workerResponses := results
    reliabilityNote := calculateReliabilityNote results }

/-- The registration step of the bus `SubmitRequest` (part_002 lines
99-103): create a fresh buffered reply channel and store it in the
pending-request map under `req.ID` (overwriting any stale entry, as a Go
map assignment does). -/
def busRegister (pending0 : Pending) (req : OracleRequest) : Pending :=
  fun k => if k = req.id then some [] else pending0 k

/-- Function `SubmitRequest` (bus coordinator, part_002 lines 96-143): register a
fresh buffered channel under `req.ID`, publish the task (on failure,
short-circuit to a zero-value result naming the failure), collect, then
aggregate; the deferred cleanup deletes the map entry on every exit
path. Returns the composed result and the pending map after the round. -/
def busSubmitRequest (pending0 : Pending) (req : OracleRequest)
    (round : BusRound) : OracleResult × Pending :=
  let pending1 : Pending := busRegister pending0 req
  if round.publishOk then
    let c := busCollect req.id pending1 round.events
    (busAggregateRound req.id c.1,
     fun k => if k = req.id then none else c.2 k)
  else
    ({ requestID := req.id
       finalValue := 0
       workerResponses := []
       reliabilityNote := "Failed to publish task: " ++ round.publishErrMsg },
     fun k => if k = req.id then none else pending1 k)

/-- Function `RegisterWorker` (client.go lines 220-229, direct topology): upsert by
`WorkerID` into the registry map with `LastSeen` refreshed to the current
time; the map is embedded as a list keyed by `id`. -/
def RegisterWorker (registry : List WorkerInfo) (w : WorkerInfo)
    (now : ℚ) : List WorkerInfo :=
  let w' : WorkerInfo := { w with lastSeen := now }
  if registry.any (fun x => x.id = w.id) then
    registry.map (fun x => if x.id = w.id then w' else x)
  else registry ++ [w']

/-- Modelled from the spec: no staleness-eviction routine exists under
src/ (the repository's PRD documents that the coordinator periodically
cleans up stale workers, but no implementation is present).
`EvictStale(threshold)` "removes records whose LastSeen age exceeds
threshold", keeping every other record unchanged. -/
def EvictStale (registry : List WorkerInfo) (now threshold : ℚ) : List WorkerInfo :=
  registry.filter (fun w => decide (now - w.lastSeen ≤ threshold))

/-- The correlation invariant of the pending-request map: every result
buffered in the channel registered under key `k` carries `RequestID = k`. -/
def PendingInv (p : Pending) : Prop :=
  ∀ k ch, p k = some ch → ∀ r ∈ ch, r.requestID = k

/-- A successful worker result fixture. -/
def wrOk (id reqID : String) (v : ℚ) : WorkerResult :=
  ⟨id, reqID, v, "", 0, true⟩

/-- A failed worker result fixture. -/
def wrFail (id reqID e : String) : WorkerResult :=
  ⟨id, reqID, 0, e, 0, false⟩

/-- Five outcomes, four successful (success rate exactly 0.8). -/
def resFourOfFive : List WorkerResult :=
  [wrOk "a" "r" 1, wrOk "b" "r" 2, wrOk "c" "r" 3, wrOk "d" "r" 4,
    wrFail "e" "r" "boom"]

/-- Four outcomes, two successful (success rate exactly 0.5). -/
def resTwoOfFour : List WorkerResult :=
  [wrOk "a" "r" 1, wrOk "b" "r" 2, wrFail "c" "r" "boom", wrFail "d" "r" "boom"]

/-- Four outcomes, one successful (success rate 0.25). -/
def resOneOfFour : List WorkerResult :=
  [wrOk "a" "r" 1, wrFail "b" "r" "boom", wrFail "c" "r" "boom",
    wrFail "d" "r" "boom"]

/-- A registered-worker fixture. -/
def w0 : WorkerInfo :=
  ⟨"w0", "http://localhost:8081", 0, true⟩

/-- A call environment whose transport step fails. -/
def transportFailCall : WorkerCall :=
  ⟨none, none, some "connection refused", 0, none, .fail "unreachable", 2⟩

/-- A call environment whose decode step fails. -/
def decodeFailCall : WorkerCall :=
  ⟨none, none, none, 200, none, .fail "bad json", 3⟩

/-- A call environment that returns HTTP status 500 with a body that
decodes to a `WorkerResult` claiming success. -/
def status500Call : WorkerCall :=
  ⟨none, none, none, 500, none, .ok (wrOk "wx" "other" 42), 1⟩


/-- Helper: the stored-at-own-key update of `handleWorkerResult` preserves
the correlation invariant of the pending map. -/
theorem handleWorkerResult_preserves (p : Pending) (res : WorkerResult)
    (hp : PendingInv p) : PendingInv (handleWorkerResult p res) := by
  unfold handleWorkerResult
  cases hch : p res.requestID with
  | none => exact hp
  | some ch =>
    show PendingInv (if ch.length < 10 then
      fun k => if k = res.requestID then some (ch ++ [res]) else p k else p)
    by_cases hlen : ch.length < 10
    · rw [if_pos hlen]
      intro k ch2 hk r hr
      by_cases hkeq : k = res.requestID
      · subst hkeq
        simp only [if_pos rfl] at hk
        cases hk
        rcases List.mem_append.mp hr with h1 | h1
        · exact hp _ ch hch r h1
        · rcases List.mem_singleton.mp h1 with rfl
          rfl
      · simp only [if_neg hkeq] at hk
        exact hp k ch2 hk r hr
    · rw [if_neg hlen]
      exact hp

/-- Helper: draining the round's own channel yields only results carrying
the round's request id, and preserves the invariant. -/
theorem drainOwn_spec (reqID : String) (p : Pending) (hp : PendingInv p) :
    (∀ r ∈ (drainOwn reqID p).1, r.requestID = reqID) ∧
      PendingInv (drainOwn reqID p).2 := by
  unfold drainOwn
  cases hch : p reqID with
  | none => exact ⟨(by intro r hr; cases hr), hp⟩
  | some ch =>
    constructor
    · intro r hr
      exact hp reqID ch hch r hr
    · intro k ch2 hk r hr
      by_cases hkeq : k = reqID
      · subst hkeq
        simp only [if_pos rfl] at hk
        cases hk
        cases hr
      · simp only [if_neg hkeq] at hk
        exact hp k ch2 hk r hr

/-- Helper: folding the collection step keeps every collected result on the
round's request id and keeps the invariant. -/
theorem busCollect_go (reqID : String) (events : List WorkerResult) :
    ∀ acc : List WorkerResult × Pending,
      (∀ x ∈ acc.1, x.requestID = reqID) → PendingInv acc.2 →
      (∀ r ∈ (events.foldl (busStep reqID) acc).1, r.requestID = reqID) ∧
        PendingInv (events.foldl (busStep reqID) acc).2 := by
  induction events with
  | nil => intro acc h1 h2; exact ⟨h1, h2⟩
  | cons e tl ih =>
    intro acc h1 h2
    rw [List.foldl_cons]
    apply ih
    · intro x hx
      rcases List.mem_append.mp hx with hx1 | hx1
      · exact h1 x hx1
      · exact (drainOwn_spec reqID _ (handleWorkerResult_preserves _ e h2)).1 x hx1
    · exact (drainOwn_spec reqID _ (handleWorkerResult_preserves _ e h2)).2

/-- Helper: every branch of `sendTaskToWorker` stamps the round's request
id on the produced outcome. -/
theorem sendTaskToWorker_requestID (req : OracleRequest) (w : WorkerInfo)
    (call : WorkerCall) : (sendTaskToWorker req w call).requestID = req.id := by
  obtain ⟨m, c, t, s, rd, d, el⟩ := call
  cases m <;> cases c <;> cases t <;> cases rd <;> cases d <;> rfl

/-- Helper: registering a fresh empty channel preserves the invariant. -/
theorem busRegister_preserves (p : Pending) (req : OracleRequest)
    (hp : PendingInv p) : PendingInv (busRegister p req) := by
  intro k ch hk r hr
  unfold busRegister at hk
  by_cases hkeq : k = req.id
  · subst hkeq
    simp only [if_pos rfl] at hk
    cases hk
    cases hr
  · simp only [if_neg hkeq] at hk
    exact hp k ch hk r hr

/-- C9: the Worker Registry's staleness eviction removes exactly the
records whose LastSeen age exceeds the threshold and leaves the other
records unchanged, in place and in order (`EvictStale` is modelled from
the spec, no implementation being present under src/). -/
theorem evictStale_removes_exactly_stale (registry : List WorkerInfo)
    (now threshold : ℚ) :
    (EvictStale registry now threshold).Sublist registry ∧
      ∀ w, w ∈ EvictStale registry now threshold ↔
        w ∈ registry ∧ ¬ now - w.lastSeen > threshold := by
  constructor
  · exact List.filter_sublist _
  · intro w
    simp [EvictStale, List.mem_filter, not_lt]

/-- C10 counterexample: `CalculateReliability (-1) (-1)` returns `true`
although `totalCount = -1` is not positive, so "true exactly when
totalCount > 0 and the ratio is at least 0.7" fails on the code. -/
theorem calculateReliability_negative_total_cex :
    CalculateReliability (-1) (-1) = true ∧ ¬ ((-1 : ℤ) > 0) := by
  constructor
  · norm_num [CalculateReliability]
  · norm_num

/-- C10 (amended): `CalculateReliability successCount totalCount` returns
`true` exactly when `totalCount ≠ 0` and the exact ratio is at least 0.7;
in particular it returns `false` when `totalCount` is 0. (For non-negative
counts, `totalCount ≠ 0` coincides with the claim's `totalCount > 0`.) -/
theorem calculateReliability_characterization :
    (∀ successes total : ℤ, CalculateReliability successes total = true ↔
      (total ≠ 0 ∧ (7 : ℚ) / 10 ≤ (successes : ℚ) / (total : ℚ))) ∧
    (∀ successes : ℤ, CalculateReliability successes 0 = false) := by
  constructor
  · intro s t
    unfold CalculateReliability
    by_cases ht : t = 0
    · simp [ht]
    · simp [ht, decide_eq_true_iff, ge_iff_le]
  · intro s
    unfold CalculateReliability
    simp

/-- C8: the round's correlation entry is created at the start of
`SubmitRequest` (the registered map holds a fresh empty channel under the
round's RequestID) and the deferred cleanup removes it on every exit path
— publish failure as well as collection ended by success, timeout or
cancellation — so after `SubmitRequest` returns, the pending map holds no
entry for that RequestID. -/
theorem correlation_entry_lifecycle (pending0 : Pending) (req : OracleRequest)
    (round : BusRound) :
    busRegister pending0 req req.id = some [] ∧
      (busSubmitRequest pending0 req round).2 req.id = none := by
  constructor
  · simp [busRegister]
  · unfold busSubmitRequest
    by_cases hok : round.publishOk
    · simp [hok]
    · simp [hok]

/-- C7: in the bus topology, a publish failure short-circuits
`SubmitRequest` to an Aggregated Result with FinalValue 0, an empty
outcome list and a note naming the dispatch failure; the note is the
dispatch-failure text, not the Reliability Annotator's output for the
empty round, and the Aggregator is never consulted (the early return
bypasses `aggregateResults`). -/
theorem publish_failure_short_circuit (pending0 : Pending)
    (req : OracleRequest) (msg : String) (events : List WorkerResult) :
    (busSubmitRequest pending0 req ⟨false, msg, events⟩).1 =
      { requestID := req.id
        finalValue := 0
        workerResponses := []
        reliabilityNote := "Failed to publish task: " ++ msg } ∧
      ("Failed to publish task: " ++ msg) ≠ calculateReliabilityNote [] := by
  constructor
  · rfl
  · intro h
    have h2 := congrArg String.length h
    rw [String.length_append] at h2
    have h3 : ("Failed to publish task: ").length = 24 := rfl
    have h4 : (calculateReliabilityNote []).length = 20 := rfl
    omega

/-- C1: every Worker Outcome contained in a round's Aggregated Result has
RequestID equal to the round's RequestID. In the direct topology the
dispatcher overwrites each collected result's RequestID with the round's id
before returning it; in the bus topology an incoming result is delivered
only to the pending channel registered under its own RequestID, so a round
that reads only its own channel collects only its own results (given that
the pending map satisfied the correlation invariant beforehand). -/
theorem round_outcomes_requestID (order : List ℤ) (aggregator : String)
    (req : OracleRequest) (arrived : List (WorkerInfo × WorkerCall))
    (pending0 : Pending) (round : BusRound) (hinv : PendingInv pending0) :
    (∀ r ∈ (directSubmitRequest order aggregator req arrived).workerResponses,
      r.requestID = req.id) ∧
    (∀ r ∈ (busSubmitRequest pending0 req round).1.workerResponses,
      r.requestID = req.id) := by
  constructor
  · intro r hr
    simp only [directSubmitRequest, dispatchToWorkers, List.mem_map] at hr
    obtain ⟨wc, _, rfl⟩ := hr
    exact sendTaskToWorker_requestID req wc.1 wc.2
  · intro r hr
    unfold busSubmitRequest at hr
    by_cases hok : round.publishOk
    · simp only [hok, if_pos] at hr
      have hreg := busRegister_preserves pending0 req hinv
      have hgo := busCollect_go req.id round.events ([], busRegister pending0 req)
        (by intro x hx; cases hx) hreg
      exact hgo.1 r hr
    · simp only [hok, if_neg, Bool.false_eq_true, if_false] at hr
      cases hr

/-- C1 witness: a concrete round in each topology; the bus round receives
one result for the round and one stray result for an unknown RequestID. -/
theorem round_outcomes_requestID_witness :
    (∀ r ∈ (directSubmitRequest [] "average" ⟨"r1", "BTC/USD"⟩
        [(w0, transportFailCall)]).workerResponses, r.requestID = "r1") ∧
    (∀ r ∈ (busSubmitRequest (fun _ => none) ⟨"r1", "BTC/USD"⟩
        ⟨true, "", [wrOk "w1" "r1" 10, wrOk "w2" "zz" 5]⟩).1.workerResponses,
      r.requestID = "r1") :=
  round_outcomes_requestID [] "average" ⟨"r1", "BTC/USD"⟩ [(w0, transportFailCall)]
    (fun _ => none) ⟨true, "", [wrOk "w1" "r1" 10, wrOk "w2" "zz" 5]⟩
    (by intro k ch h; cases h)

/-- C2 counterexample: the bus snapshot's `AggregateResults` (one of the
two functions the claim covers) called with strategy `"median"` on
successful values `[0, 0, 30]` returns the average `10`, not the median
strategy's value `0`. -/
theorem bus_aggregateResults_ignores_strategy_cex :
    Bus.AggregateResults [wrOk "a" "r" 0, wrOk "b" "r" 0, wrOk "c" "r" 30] "median" = 10 ∧
      aggregateMedian [wrOk "a" "r" 0, wrOk "b" "r" 0, wrOk "c" "r" 30] = 0 := by
  constructor
  · norm_num [Bus.AggregateResults, aggregateAverage, successfulValues, wrOk]
  · norm_num [aggregateMedian, successfulValues, wrOk,
      List.insertionSort, List.orderedInsert]

/-- C2 (amended): the direct-dispatch snapshot's `AggregateResults`
selects the aggregation by strategy name — `"median"` yields the median
strategy, `"majority"` the majority strategy, and every other name
(unknown names included) falls back to the average — while the bus
snapshot's `AggregateResults` ignores the strategy argument and always
returns the average. -/
theorem aggregateResults_strategy_selection :
    (∀ (order : List ℤ) (results : List WorkerResult),
      AggregateResults order results "median" = aggregateMedian results) ∧
    (∀ (order : List ℤ) (results : List WorkerResult),
      AggregateResults order results "majority" = aggregateMajorityVote order results) ∧
    (∀ (order : List ℤ) (results : List WorkerResult) (strategy : String),
      strategy ≠ "median" → strategy ≠ "majority" →
      AggregateResults order results strategy = aggregateAverage results) ∧
    (∀ (results : List WorkerResult) (strategy : String),
      Bus.AggregateResults results strategy = aggregateAverage results) := by
  refine ⟨fun _ _ => rfl, fun _ _ => rfl, ?_, fun _ _ => rfl⟩
  intro order results strategy h1 h2
  simp [AggregateResults, h1, h2]

/-- C2 witness: the unknown strategy name `"mystery"` falls back to the
average in the direct snapshot. -/
theorem aggregateResults_strategy_selection_witness :
    AggregateResults [] [wrOk "a" "r" 3] "mystery" = aggregateAverage [wrOk "a" "r" 3] :=
  aggregateResults_strategy_selection.2.2.1 [] [wrOk "a" "r" 3] "mystery"
    (by decide) (by decide)

/-- C3 counterexample: a response with HTTP status 500 whose body decodes
to a result with empty `Err` is returned as a success — `sendTaskToWorker`
never inspects the status code, so a non-2xx status is not mapped to an
ErrorKind string. -/
theorem sendTaskToWorker_status_unchecked_cex :
    status500Call.status = 500 ∧
      (sendTaskToWorker ⟨"r1", "BTC/USD"⟩ w0 status500Call).err = "" := by
  exact ⟨rfl, rfl⟩

/-- C3 (amended): in the direct topology every per-worker call produces a
Worker Outcome and never aborts the round (the dispatcher returns one
outcome per completed call); marshal, request-creation, transport,
body-read and decode errors are each mapped to a descriptive ErrorKind
string; the HTTP status code, however, is never examined — a response
whose body decodes is returned as decoded, whatever its status. -/
theorem sendTaskToWorker_tagged_failures (req : OracleRequest)
    (w : WorkerInfo) (call : WorkerCall) :
    (∀ e, call.marshalErr = some e →
      (sendTaskToWorker req w call).err = "failed to marshal request: " ++ e) ∧
    (∀ e, call.marshalErr = none → call.createErr = some e →
      (sendTaskToWorker req w call).err = "failed to create HTTP request: " ++ e) ∧
    (∀ e, call.marshalErr = none → call.createErr = none →
      call.transportErr = some e →
      (sendTaskToWorker req w call).err = "HTTP request failed: " ++ e) ∧
    (∀ e, call.marshalErr = none → call.createErr = none →
      call.transportErr = none → call.readErr = some e →
      (sendTaskToWorker req w call).err = "failed to read response body: " ++ e) ∧
    (∀ e, call.marshalErr = none → call.createErr = none →
      call.transportErr = none → call.readErr = none →
      call.decodeResult = .fail e →
      (sendTaskToWorker req w call).err = "failed to decode response: " ++ e) ∧
    (∀ r, call.marshalErr = none → call.createErr = none →
      call.transportErr = none → call.readErr = none →
      call.decodeResult = .ok r →
      sendTaskToWorker req w call =
        { r with responseTime := call.elapsed, workerID := w.id, requestID := req.id }) ∧
    (∀ s, sendTaskToWorker req w { call with status := s } =
      sendTaskToWorker req w call) ∧
    (∀ arrived : List (WorkerInfo × WorkerCall),
      (dispatchToWorkers req arrived).length = arrived.length) := by
  obtain ⟨m, c, t, s, rd, d, el⟩ := call
  refine ⟨?_, ?_, ?_, ?_, ?_, ?_, ?_, ?_⟩
  · intro e h
    cases h
    rfl
  · intro e h1 h2
    cases h1
    cases h2
    rfl
  · intro e h1 h2 h3
    cases h1
    cases h2
    cases h3
    rfl
  · intro e h1 h2 h3 h4
    cases h1
    cases h2
    cases h3
    cases h4
    rfl
  · intro e h1 h2 h3 h4 h5
    cases h1
    cases h2
    cases h3
    cases h4
    cases h5
    rfl
  · intro r h1 h2 h3 h4 h5
    cases h1
    cases h2
    cases h3
    cases h4
    cases h5
    rfl
  · intro s2
    cases m <;> cases c <;> cases t <;> cases rd <;> cases d <;> rfl
  · intro arrived
    simp [dispatchToWorkers]

/-- C3 witness: a transport failure and a decode failure are tagged with
their descriptive ErrorKind strings. -/
theorem sendTaskToWorker_tagged_failures_witness :
    (sendTaskToWorker ⟨"r1", "BTC/USD"⟩ w0 transportFailCall).err =
        "HTTP request failed: " ++ "connection refused" ∧
      (sendTaskToWorker ⟨"r1", "BTC/USD"⟩ w0 decodeFailCall).err =
        "failed to decode response: " ++ "bad json" :=
  ⟨(sendTaskToWorker_tagged_failures ⟨"r1", "BTC/USD"⟩ w0 transportFailCall).2.2.1
      "connection refused" rfl rfl rfl,
    (sendTaskToWorker_tagged_failures ⟨"r1", "BTC/USD"⟩ w0 decodeFailCall).2.2.2.2.1
      "bad json" rfl rfl rfl rfl rfl⟩

/-- Helper: once the max-finding fold holds the strict-majority bucket, no
later bucket displaces it. -/
theorem findMajority_stays (count : ℤ → ℕ) (b : ℤ)
    (hmax : ∀ a, a ≠ b → count a < count b) :
    ∀ order : List ℤ,
      order.foldl (fun acc x => if count x > acc.2 then (x, count x) else acc)
          (b, count b) = (b, count b) := by
  intro order
  induction order with
  | nil => rfl
  | cons a tl ih =>
    rw [List.foldl_cons]
    by_cases hab : a = b
    · subst hab
      rw [if_neg (lt_irrefl (count a))]
      exact ih
    · rw [if_neg (not_lt.mpr (le_of_lt (hmax a hab)))]
      exact ih

/-- Helper: starting below the strict-majority bucket's count, the
max-finding fold ends at that bucket whenever the order contains it. -/
theorem findMajority_reaches (count : ℤ → ℕ) (b : ℤ)
    (hmax : ∀ a, a ≠ b → count a < count b) :
    ∀ (order : List ℤ) (acc : ℤ × ℕ), b ∈ order → acc.2 < count b →
      order.foldl (fun acc2 x => if count x > acc2.2 then (x, count x) else acc2)
          acc = (b, count b) := by
  intro order
  induction order with
  | nil => intro acc hmem; cases hmem
  | cons a tl ih =>
    intro acc hmem hacc
    rw [List.foldl_cons]
    by_cases hab : a = b
    · subst hab
      rw [if_pos hacc]
      exact findMajority_stays count a hmax tl
    · have hb : b ∈ tl := by
        rcases List.mem_cons.mp hmem with h | h
        · exact absurd h.symm hab
        · exact h
      by_cases hcond : count a > acc.2
      · rw [if_pos hcond]
        exact ih (a, count a) hb (hmax a hab)
      · rw [if_neg hcond]
        exact ih acc hb hacc

/-- C4 counterexample: for the single successful value `-10.4`, the code's
rounding `int(v + 0.5)` buckets it at `-9` (truncation toward zero of
`-9.9`), while rounding to the nearest integer buckets it at `-10`; the
returned majority value is `-9.0`, not the `-10.0` the claim's
nearest-integer reading predicts. -/
theorem majorityVote_negative_rounding_cex :
    goRound (-52 / 5) = -9 ∧
      roundNearestSpec (-52 / 5) = -10 ∧
      aggregateMajorityVote [-9] [wrOk "a" "r" (-52 / 5)] = -9 ∧
      aggregateMajorityVote [-9] [wrOk "a" "r" (-52 / 5)] ≠ ((-10 : ℤ) : ℚ) := by
  have h1 : goRound (-52 / 5) = -9 := by
    norm_num [goRound, goTrunc]
    norm_num [Int.ceil_eq_iff]
  have hfil : List.filter (fun v => decide (goRound v = -9)) [(-52 / 5 : ℚ)]
      = [(-52 / 5 : ℚ)] := by
    simp [List.filter_cons, h1]
  have hcount : voteCount [(-52 / 5 : ℚ)] (-9) = 1 := by
    unfold voteCount
    rw [hfil]
    rfl
  have hfm : findMajority [-9] (voteCount [(-52 / 5 : ℚ)]) = (-9, 1) := by
    unfold findMajority
    rw [List.foldl_cons, List.foldl_nil, hcount]
    norm_num
  have h3 : aggregateMajorityVote [-9] [wrOk "a" "r" (-52 / 5)] = -9 := by
    unfold aggregateMajorityVote
    rw [if_neg (by decide :
      ¬ ([wrOk "a" "r" (-52 / 5)] : List WorkerResult).length = 0)]
    show (if (successfulValues [wrOk "a" "r" (-52 / 5)]).length = 0 then (0 : ℚ)
      else ((findMajority [-9]
        (voteCount (successfulValues [wrOk "a" "r" (-52 / 5)]))).1 : ℚ)) = -9
    rw [show successfulValues [wrOk "a" "r" (-52 / 5)] = [(-52 / 5 : ℚ)] from rfl]
    rw [if_neg (by decide : ¬ ([(-52 / 5 : ℚ)]).length = 0), hfm]
    norm_num
  refine ⟨h1, by norm_num [roundNearestSpec], h3, ?_⟩
  rw [h3]
  norm_num

/-- C4 (amended): the majority-vote aggregation buckets each successful
value by `int(v + 0.5)` — addition of one half followed by truncation
toward zero, which agrees with nearest-integer rounding for non-negative
values but not for negative ones — and, whatever iteration order the Go
map is traversed in, returns the bucket with the strictly highest count as
a float, provided such a strictly maximal bucket exists. -/
theorem majorityVote_strict_max (order : List ℤ) (results : List WorkerResult)
    (bstar : ℤ) (hmem : bstar ∈ order)
    (hkeys : ∀ v ∈ successfulValues results, goRound v ∈ order)
    (hpos : 0 < voteCount (successfulValues results) bstar)
    (hmax : ∀ a ∈ order, a ≠ bstar →
      voteCount (successfulValues results) a
        < voteCount (successfulValues results) bstar) :
    aggregateMajorityVote order results = (bstar : ℚ) := by
  have hmaxAll : ∀ a, a ≠ bstar →
      voteCount (successfulValues results) a
        < voteCount (successfulValues results) bstar := by
    intro a ha
    by_cases hin : a ∈ order
    · exact hmax a hin ha
    · have hz : voteCount (successfulValues results) a = 0 := by
        by_contra hnz
        obtain ⟨v, hv⟩ :=
          List.exists_mem_of_length_pos (Nat.pos_of_ne_zero hnz)
        have hv2 := List.mem_filter.mp hv
        have ha2 : goRound v = a := of_decide_eq_true hv2.2
        exact hin (ha2 ▸ hkeys v hv2.1)
      rw [hz]
      exact hpos
  have hvne : (successfulValues results).length ≠ 0 := by
    intro h0
    rw [List.length_eq_zero.mp h0] at hpos
    simp [voteCount] at hpos
  have hres : ¬ results.length = 0 := by
    intro h0
    rw [List.length_eq_zero.mp h0] at hvne
    simp [successfulValues] at hvne
  unfold aggregateMajorityVote
  rw [if_neg hres]
  show (if (successfulValues results).length = 0 then (0 : ℚ)
    else ((findMajority order (voteCount (successfulValues results))).1 : ℚ))
      = (bstar : ℚ)
  rw [if_neg hvne]
  have hfind : findMajority order (voteCount (successfulValues results))
      = (bstar, voteCount (successfulValues results) bstar) := by
    unfold findMajority
    exact findMajority_reaches _ bstar hmaxAll order (0, 0) hmem hpos
  rw [hfind]

/-- C4 witness: the spec's example — successful values 10.1, 10.4, 20.0
bucket to 10, 10, 20, and the majority result is 10.0 (whatever of the two
possible map iteration orders is taken, here `[10, 20]`). -/
theorem majorityVote_strict_max_witness :
    aggregateMajorityVote [10, 20]
        [wrOk "a" "r" (101 / 10), wrOk "b" "r" (52 / 5), wrOk "c" "r" 20]
      = ((10 : ℤ) : ℚ) := by
  have hsv : successfulValues
      [wrOk "a" "r" (101 / 10), wrOk "b" "r" (52 / 5), wrOk "c" "r" 20]
      = [101 / 10, 52 / 5, 20] := rfl
  have hr1 : goRound (101 / 10) = 10 := by norm_num [goRound, goTrunc]
  have hr2 : goRound (52 / 5) = 10 := by norm_num [goRound, goTrunc]
  have hr3 : goRound 20 = 20 := by norm_num [goRound, goTrunc]
  apply majorityVote_strict_max
  · show (10 : ℤ) ∈ [10, 20]
    decide
  · intro v hv
    rw [hsv] at hv
    rcases hv with _ | ⟨_, hv⟩
    · rw [hr1]; decide
    rcases hv with _ | ⟨_, hv⟩
    · rw [hr2]; decide
    rcases hv with _ | ⟨_, hv⟩
    · rw [hr3]; decide
    · cases hv
  · rw [hsv]
    norm_num [voteCount, hr1, hr2, hr3]
  · intro a ha hne
    rw [hsv]
    rcases List.mem_cons.mp ha with rfl | ha2
    · exact absurd rfl hne
    rcases List.mem_cons.mp ha2 with rfl | ha3
    · norm_num [voteCount, hr1, hr2, hr3]
    · cases ha3

/-- C5: the reliability annotation is determined by the success ratio:
an empty list yields "No workers responded"; a ratio at least 0.8 yields
"All workers responded successfully"; a ratio in [0.5, 0.8) yields
"Partial response: X/Y workers succeeded"; a ratio below 0.5 yields
"Low reliability: only X/Y workers succeeded", where X is the success
count and Y the total count. -/
theorem reliabilityNote_thresholds (results : List WorkerResult) :
    (results = [] → calculateReliabilityNote results = "No workers responded") ∧
    (results ≠ [] → 4 / 5 ≤ successRatio results →
      calculateReliabilityNote results = "All workers responded successfully") ∧
    (results ≠ [] → 1 / 2 ≤ successRatio results → successRatio results < 4 / 5 →
      calculateReliabilityNote results =
        "Partial response: " ++ toString (successCount results) ++ "/" ++
          toString results.length ++ " workers succeeded") ∧
    (results ≠ [] → successRatio results < 1 / 2 →
      calculateReliabilityNote results =
        "Low reliability: only " ++ toString (successCount results) ++ "/" ++
          toString results.length ++ " workers succeeded") := by
  have hlen : ∀ h : results ≠ [], ¬ results.length = 0 :=
    fun h h0 => h (List.length_eq_zero.mp h0)
  refine ⟨?_, ?_, ?_, ?_⟩
  · intro h
    subst h
    rfl
  · intro hne hr
    unfold calculateReliabilityNote
    rw [if_neg (hlen hne), if_pos hr]
  · intro hne h1 h2
    unfold calculateReliabilityNote
    rw [if_neg (hlen hne), if_neg (not_le.mpr h2), if_pos h1]
  · intro hne h1
    unfold calculateReliabilityNote
    rw [if_neg (hlen hne),
      if_neg (not_le.mpr (lt_trans h1 (by norm_num))),
      if_neg (not_le.mpr h1)]

/-- C5 witness: the spec's four example rounds — empty, 4/5 successes,
2/4 successes, 1/4 successes. -/
theorem reliabilityNote_thresholds_witness :
    calculateReliabilityNote [] = "No workers responded" ∧
    calculateReliabilityNote resFourOfFive = "All workers responded successfully" ∧
    calculateReliabilityNote resTwoOfFour = "Partial response: 2/4 workers succeeded" ∧
    calculateReliabilityNote resOneOfFour =
      "Low reliability: only 1/4 workers succeeded" := by
  have h45 : successRatio resFourOfFive = (4 : ℚ) / 5 := by
    unfold successRatio
    rw [show successCount resFourOfFive = 4 from rfl,
      show resFourOfFive.length = 5 from rfl]
    norm_num
  have h24 : successRatio resTwoOfFour = (2 : ℚ) / 4 := by
    unfold successRatio
    rw [show successCount resTwoOfFour = 2 from rfl,
      show resTwoOfFour.length = 4 from rfl]
    norm_num
  have h14 : successRatio resOneOfFour = (1 : ℚ) / 4 := by
    unfold successRatio
    rw [show successCount resOneOfFour = 1 from rfl,
      show resOneOfFour.length = 4 from rfl]
    norm_num
  refine ⟨(reliabilityNote_thresholds []).1 rfl, ?_, ?_, ?_⟩
  · exact (reliabilityNote_thresholds resFourOfFive).2.1 (by decide)
      (by rw [h45])
  · exact ((reliabilityNote_thresholds resTwoOfFour).2.2.1 (by decide)
      (by rw [h24]; norm_num) (by rw [h24]; norm_num)).trans rfl
  · exact ((reliabilityNote_thresholds resOneOfFour).2.2.2 (by decide)
      (by rw [h14]; norm_num)).trans rfl

/-- C6: the median aggregation considers only outcomes with no ErrorKind;
against any ascending arrangement `l` of those successful values, the
result is the middle element for an odd count, the mean of the two middle
elements for an even count, and 0.0 for an empty successful set. -/
theorem median_of_sorted_perm (results : List WorkerResult) (l : List ℚ)
    (hp : l.Perm (successfulValues results))
    (hs : l.Sorted (fun a b => a ≤ b)) :
    aggregateMedian results =
      if l.length = 0 then 0
      else if l.length % 2 = 0 then
        (l.getD (l.length / 2 - 1) 0 + l.getD (l.length / 2) 0) / 2
      else l.getD (l.length / 2) 0 := by
  have hsort : List.insertionSort (fun a b => a ≤ b) (successfulValues results) = l := by
    have hs1 : (List.insertionSort (fun a b => a ≤ b)
        (successfulValues results)).Sorted (fun a b => a ≤ b) :=
      List.sorted_insertionSort _ _
    exact List.eq_of_perm_of_sorted
      ((List.perm_insertionSort _ _).trans hp.symm) hs1 hs
  have hvlen : (successfulValues results).length = l.length := (hp.length_eq).symm
  by_cases hres : results.length = 0
  · have h0 : results = [] := List.length_eq_zero.mp hres
    subst h0
    have hl : l = [] := hp.eq_nil
    subst hl
    rfl
  · unfold aggregateMedian
    rw [if_neg hres]
    show (if (successfulValues results).length = 0 then (0 : ℚ)
      else
        if (List.insertionSort (fun a b => a ≤ b) (successfulValues results)).length % 2 = 0 then
          ((List.insertionSort (fun a b => a ≤ b) (successfulValues results)).getD
              ((List.insertionSort (fun a b => a ≤ b) (successfulValues results)).length / 2 - 1) 0 +
            (List.insertionSort (fun a b => a ≤ b) (successfulValues results)).getD
              ((List.insertionSort (fun a b => a ≤ b) (successfulValues results)).length / 2) 0) / 2
        else (List.insertionSort (fun a b => a ≤ b) (successfulValues results)).getD
          ((List.insertionSort (fun a b => a ≤ b) (successfulValues results)).length / 2) 0) = _
    rw [hsort, hvlen]

/-- C6 witness: the spec's examples — successful values [10, 20, 30] give
median 20; [10, 20] give 15; a round with only failed outcomes gives 0. -/
theorem median_of_sorted_perm_witness :
    aggregateMedian [wrOk "a" "r" 10, wrOk "b" "r" 20, wrOk "c" "r" 30] = 20 ∧
    aggregateMedian [wrOk "a" "r" 20, wrOk "b" "r" 10] = 15 ∧
    aggregateMedian [wrFail "a" "r" "boom"] = 0 := by
  refine ⟨?_, ?_, ?_⟩
  · have h := median_of_sorted_perm
      [wrOk "a" "r" 10, wrOk "b" "r" 20, wrOk "c" "r" 30] [10, 20, 30]
      (by decide) (by decide)
    rw [h]
    norm_num
  · have h := median_of_sorted_perm
      [wrOk "a" "r" 20, wrOk "b" "r" 10] [10, 20]
      (by decide) (by decide)
    rw [h]
    norm_num
  · have h := median_of_sorted_perm [wrFail "a" "r" "boom"] []
      (by decide) (by decide)
    rw [h]
    norm_num

/-- C7 witness: a concrete failed publish with a NATS error text. -/
theorem publish_failure_short_circuit_witness :
    (busSubmitRequest (fun _ => none) ⟨"r9", "ETH/USD"⟩
        ⟨false, "nats: connection closed", []⟩).1 =
      { requestID := "r9"
        finalValue := 0
        workerResponses := []
        reliabilityNote := "Failed to publish task: " ++ "nats: connection closed" } ∧
      ("Failed to publish task: " ++ "nats: connection closed")
        ≠ calculateReliabilityNote [] :=
  publish_failure_short_circuit (fun _ => none) ⟨"r9", "ETH/USD"⟩
    "nats: connection closed" []

/-- C8 witness: a concrete round whose entry is present after registration
and absent after the round returns. -/
theorem correlation_entry_lifecycle_witness :
    busRegister (fun _ => none) ⟨"r8", "BTC/USD"⟩ "r8" = some [] ∧
      (busSubmitRequest (fun _ => none) ⟨"r8", "BTC/USD"⟩
        ⟨true, "", [wrOk "w1" "r8" 10]⟩).2 "r8" = none :=
  correlation_entry_lifecycle (fun _ => none) ⟨"r8", "BTC/USD"⟩
    ⟨true, "", [wrOk "w1" "r8" 10]⟩

/-- C9 witness: a registry with one fresh and one stale record. -/
theorem evictStale_removes_exactly_stale_witness :
    (EvictStale [⟨"wa", "e1", 90, true⟩, ⟨"wb", "e2", 10, true⟩] 100 30).Sublist
        [⟨"wa", "e1", 90, true⟩, ⟨"wb", "e2", 10, true⟩] ∧
      ∀ w, w ∈ EvictStale [⟨"wa", "e1", 90, true⟩, ⟨"wb", "e2", 10, true⟩] 100 30 ↔
        w ∈ [⟨"wa", "e1", 90, true⟩, ⟨"wb", "e2", 10, true⟩] ∧
          ¬ (100 : ℚ) - w.lastSeen > 30 :=
  evictStale_removes_exactly_stale
    [⟨"wa", "e1", 90, true⟩, ⟨"wb", "e2", 10, true⟩] 100 30

/-- C10 witness: 7 of 10 reaches the 0.7 threshold. -/
theorem calculateReliability_characterization_witness :
    CalculateReliability 7 10 = true :=
  (calculateReliability_characterization.1 7 10).mpr
    ⟨by decide, by norm_num⟩
